import Mathlib

/-!
Shallow embedding of the status-collection logic of the luci-app-tailscale
view module (sources: src/unnamed/part_000 and
src/htdocs/luci-static/resources/view/tailscale/interface.js).

The module's two collectors, loadInterfaceInfo and loadPeerStatus, are
translated into pure Lean functions.  JavaScript runtime behaviour that the
source relies on (truthiness, parseInt, String.prototype.trim / split /
includes / startsWith, property access on possibly-null values, regular
expression matching of the two fixed patterns, try/catch) is modelled
explicitly.  Fallible JavaScript expressions run in the Except monad; the
try/catch of loadPeerStatus is the match on that Except.  The host
facilities that are external to the repository (the string-format helper
for the "%1024mB" conversion, and JSON.parse) are modelled from the
specification's contract for them, as noted on their definitions.
-/

/-- Truthiness of a JavaScript value that is either a string or null/undefined
(the shape of an fs.read result): null, undefined and the empty string are
falsy, every other string is truthy. -/
def strTruthy : Option String → Bool
  | none => false
  | some s => s != ""

/-- Does the character-list pattern occur at the head of the list? -/
def subAt : List Char → List Char → Bool
  | [], _ => true
  | _ :: _, [] => false
  | p :: ps, c :: cs => p == c && subAt ps cs

/-- Occurrence of a pattern anywhere in a character list. -/
def hasSub (pat : List Char) : List Char → Bool
  | [] => pat.isEmpty
  | c :: cs => subAt pat (c :: cs) || hasSub pat cs

/-- Model of JavaScript String.prototype.includes. -/
def strIncludes (s pat : String) : Bool :=
  hasSub pat.data s.data

/-- Model of JavaScript String.prototype.startsWith for the literal "fe80". -/
def startsFe80 (t : String) : Bool :=
  subAt "fe80".data t.data

/-- Whitespace trimming on a character list (both ends). -/
def trimChars (s : List Char) : List Char :=
  ((s.dropWhile Char.isWhitespace).reverse.dropWhile Char.isWhitespace).reverse

/-- Model of JavaScript String.prototype.trim (ASCII whitespace). -/
def jsTrim (s : String) : String :=
  String.mk (trimChars s.data)

/-- Split a character list at every occurrence of the separator character,
keeping empty segments, as JavaScript String.prototype.split does. -/
def splitChAux (sep : Char) : List Char → List Char → List (List Char)
  | [], acc => [acc.reverse]
  | x :: xs, acc =>
      if x == sep then acc.reverse :: splitChAux sep xs []
      else splitChAux sep xs (x :: acc)

/-- Model of JavaScript s.split(sep) for a single-character separator. -/
def splitCh (sep : Char) (s : List Char) : List (List Char) :=
  splitChAux sep s []

/-- Lines of a command output, as produced by stdout.split, with the newline
character as separator. -/
def jsLines (s : String) : List String :=
  (splitCh '\n' s.data).map String.mk

/-- Numeric value of a list of decimal digit characters. -/
def digitsVal (ds : List Char) : Nat :=
  ds.foldl (fun a c => a * 10 + (c.toNat - 48)) 0

/-- Model of JavaScript parseInt(s, 10): skip leading whitespace, read an
optional sign and then the longest prefix of decimal digits; the result is
none (NaN) when no digit is found, ignoring any trailing junk otherwise. -/
def jsParseInt10 (s : String) : Option Int :=
  let cs := s.data.dropWhile Char.isWhitespace
  let signAndRest : Int × List Char :=
    match cs with
    | '-' :: rest => (-1, rest)
    | '+' :: rest => (1, rest)
    | _ => (1, cs)
  let ds := signAndRest.2.takeWhile Char.isDigit
  if ds.isEmpty then none
  else some (signAndRest.1 * (digitsVal ds : Int))

/-- Model of the JavaScript expression parseInt(s, 10) || 0: NaN collapses
to zero. -/
def parseIntOr0 (s : String) : Int :=
  match jsParseInt10 s with
  | none => 0
  | some n => n

/-- Modelled from the spec: the string-format facility invoked by the source
as a percent-1024-m-B conversion is external to this repository; the
specification's byte-formatting contract is to convert an integer count of
bytes into binary megabytes (divide by 1024 squared) and render with a
fixed unit suffix. -/
def formatBytes1024m (n : Int) : String :=
  toString (n / 1048576) ++ " MB"

/-- Result of the fs.exec call for the address-listing command: exit code and
captured standard output (none models an undefined stdout). -/
structure IpExec where
  code : Int
  stdout : Option String
deriving DecidableEq

/-- Parsed interface record built by loadInterfaceInfo. -/
structure InterfaceInfo where
  name : String
  rxBytes : String
  txBytes : String
  mtu : String
  ipv4 : String
  ipv6 : String
deriving DecidableEq

/-- Condition under which the address-listing command counts as failed in the
absence test of loadInterfaceInfo: the exec result is absent (the command
failed to execute) or its exit code is non-zero. -/
def ipCmdFailed : Option IpExec → Bool
  | none => true
  | some r => r.code != 0

/-- Guard of the early return of loadInterfaceInfo: the rx read result is
falsy, the mtu read result is falsy, and the address command failed. -/
def absentCond (rxRes mtuRes : Option String) (ipRes : Option IpExec) : Bool :=
  !strTruthy rxRes && !strTruthy mtuRes && ipCmdFailed ipRes

/-- Character class of the IPv4 capture group: digits and the dot. -/
def isIpv4Char (c : Char) : Bool :=
  c.isDigit || c == '.'

/-- Character class of the IPv6 capture group: hexadecimal digits of either
case and the colon. -/
def isIpv6Char (c : Char) : Bool :=
  c.isDigit || c == ':' || decide ('a' ≤ c ∧ c ≤ 'f') || decide ('A' ≤ c ∧ c ≤ 'F')

/-- Consume the given characters from the head of the list, returning the
remainder, or none when the head differs. -/
def stripPre : List Char → List Char → Option (List Char)
  | [], cs => some cs
  | _ :: _, [] => none
  | m :: ms, c :: cs => if c == m then stripPre ms cs else none

/-- Model of the two anchored regular expressions of the source: optional
leading whitespace, a literal marker, at least one whitespace character, and
a capture of the longest nonempty run of characters of the given class. -/
def captureTok (marker : List Char) (good : Char → Bool) (line : String) : Option String :=
  match stripPre marker (line.data.dropWhile Char.isWhitespace) with
  | none => none
  | some rest =>
      if (rest.takeWhile Char.isWhitespace).isEmpty then none
      else
        let tok := (rest.dropWhile Char.isWhitespace).takeWhile good
        if tok.isEmpty then none else some (String.mk tok)

/-- Capture group of the IPv4 pattern of the source on one line. -/
def ipv4Capture (line : String) : Option String :=
  captureTok "inet".data isIpv4Char line

/-- Capture group of the IPv6 pattern of the source on one line. -/
def ipv6Capture (line : String) : Option String :=
  captureTok "inet6".data isIpv6Char line

/-- IPv6 capture of one line after the link-local filter of the source: a
captured token starting with fe80 is discarded. -/
def ipv6Good (line : String) : Option String :=
  match ipv6Capture line with
  | some t => if startsFe80 t then none else some t
  | none => none

/-- Line loop of loadInterfaceInfo: each line may set the IPv4 slot (first
IPv4 match wins) and the IPv6 slot (first non-link-local IPv6 match wins),
both slots being independent. -/
def scanAddrs : List String → Option String → Option String → Option String × Option String
  | [], v4, v6 => (v4, v6)
  | line :: rest, v4, v6 =>
      let v4' := match v4 with
        | some x => some x
        | none => ipv4Capture line
      let v6' := match v6 with
        | some x => some x
        | none => ipv6Good line
      scanAddrs rest v4' v6'

/-- Model of the JavaScript defaulting idiom value-or-dash on an optional
string: a missing or empty (falsy) value becomes the dash placeholder. -/
def jsOrDash : Option String → String
  | none => "-"
  | some s => if s != "" then s else "-"

/-- Standard output handed to the line loop: present only when the exec
result exists, exited zero, and carries a truthy stdout. -/
def addrOut : Option IpExec → Option String
  | some r => if r.code == 0 && strTruthy r.stdout then r.stdout else none
  | none => none

/-- Construction of the parsedInfo record of loadInterfaceInfo, reached when
the absence guard does not fire: a truthy byte-counter read is trimmed,
parsed and formatted (a falsy one gives a dash), a truthy mtu read is
trimmed, and the address slots come from the line loop with a dash
default. -/
def scannedPair (ipRes : Option IpExec) : Option String × Option String :=
  match addrOut ipRes with
  | some out => scanAddrs (jsLines out) none none
  | none => (none, none)

def interfaceRecord (rxRes txRes mtuRes : Option String) (ipRes : Option IpExec) :
    InterfaceInfo :=
  let scanned := scannedPair ipRes
  { name := "tailscale0"
    rxBytes :=
      match rxRes with
      | some s => if s != "" then formatBytes1024m (parseIntOr0 (jsTrim s)) else "-"
      | none => "-"
    txBytes :=
      match txRes with
      | some s => if s != "" then formatBytes1024m (parseIntOr0 (jsTrim s)) else "-"
      | none => "-"
    mtu :=
      match mtuRes with
      | some s => if s != "" then jsTrim s else "-"
      | none => "-"
    ipv4 := jsOrDash scanned.1
    ipv6 := jsOrDash scanned.2 }

/-- Translation of loadInterfaceInfo of the source.  Inputs are the four read
results delivered to the collector: the three pseudo-file reads (none models
a failed read) and the address-listing exec result (none models a command
that failed to execute). -/
def loadInterfaceInfo (rxRes txRes mtuRes : Option String) (ipRes : Option IpExec) :
    Option InterfaceInfo :=
  if absentCond rxRes mtuRes ipRes then
    none
  else
    some (interfaceRecord rxRes txRes mtuRes ipRes)

/-- JSON-like values as seen through JavaScript property access.  The undefined
constructor represents the JavaScript undefined value delivered by a missing
property. -/
inductive JVal where
  | undefined
  | jnull
  | jbool (b : Bool)
  | jnum (n : Int)
  | jstr (s : String)
  | jarr (xs : List JVal)
  | jobj (fields : List (String × JVal))

/-- JavaScript truthiness of a JVal: undefined, null, false, zero and the
empty string are falsy; arrays and objects are always truthy. -/
def jsTruthy : JVal → Bool
  | .undefined => false
  | .jnull => false
  | .jbool b => b
  | .jnum n => n != 0
  | .jstr s => s != ""
  | .jarr _ => true
  | .jobj _ => true

/-- JavaScript property access v.f: throws a TypeError on null or undefined,
looks the field up on an object (undefined when missing), and yields
undefined on every other primitive or array (none of the accessed names is a
built-in property there). -/
def jsGetField : JVal → String → Except String JVal
  | .undefined, f => .error ("TypeError: cannot read properties of undefined (reading " ++ f ++ ")")
  | .jnull, f => .error ("TypeError: cannot read properties of null (reading " ++ f ++ ")")
  | .jobj fields, f => .ok ((fields.lookup f).getD .undefined)
  | _, _ => .ok .undefined

/-- Model of Object.values: field values of an object in insertion order,
elements of an array, single-character strings of a string, and the empty
list for the remaining primitives. -/
def jsObjectValues : JVal → List JVal
  | .jobj fields => fields.map Prod.snd
  | .jarr xs => xs
  | .jstr s => s.data.map (fun c => .jstr (String.mk [c]))
  | _ => []

/-- Model of the optional-chain expression v?.[0]: undefined when v is null
or undefined, the first element of an array, the first character of a
string, the "0" property of an object, and undefined otherwise. -/
def jsOptIndex0 : JVal → JVal
  | .undefined => .undefined
  | .jnull => .undefined
  | .jarr xs => xs.headD .undefined
  | .jstr s =>
      match s.data with
      | [] => .undefined
      | c :: _ => .jstr (String.mk [c])
  | .jobj fields => (fields.lookup "0").getD .undefined
  | _ => .undefined

/-- Model of s.split with a dot separator followed by taking element zero:
the prefix of the string before its first dot. -/
def splitDotHead (s : String) : String :=
  String.mk (s.data.takeWhile (fun c => c != '.'))

/-- Modelled from the spec: the external string-format facility applied to a
peer byte counter; on a number it is the byte formatting of the
specification, and the collector only reaches it on truthy counters. -/
def jsFormatBytes : JVal → String
  | .jnum n => formatBytes1024m n
  | _ => formatBytes1024m 0

/-- Peer summary row pushed by the loop of loadPeerStatus.  Fields whose
JavaScript value is copied raw keep type JVal. -/
structure PeerSummary where
  ip : JVal
  hostname : JVal
  online : JVal
  relay : JVal
  direct : Bool
  rxBytes : String
  txBytes : String

/-- Hostname derivation of the loop: a truthy DNSName is split at dots and
its first part is taken (a TypeError is thrown when the truthy DNSName is
not a string, since only strings carry a split method); otherwise a truthy
HostName is used, and a dash as last resort. -/
def hostnameOf (peer : JVal) : Except String JVal := do
  let dns ← jsGetField peer "DNSName"
  if jsTruthy dns then
    match dns with
    | .jstr s => pure (.jstr (splitDotHead s))
    | _ => Except.error "TypeError: peer.DNSName.split is not a function"
  else do
    let hn ← jsGetField peer "HostName"
    pure (if jsTruthy hn then hn else .jstr "-")

/-- One iteration of the peer loop of loadPeerStatus, in the Except monad
because property access on a null or undefined peer record throws. -/
def buildPeer (peer : JVal) : Except String PeerSummary := do
  let host ← hostnameOf peer
  let tips ← jsGetField peer "TailscaleIPs"
  let onlineV ← jsGetField peer "Online"
  let relayV ← jsGetField peer "Relay"
  let curV ← jsGetField peer "CurAddr"
  let rxV ← jsGetField peer "RxBytes"
  let txV ← jsGetField peer "TxBytes"
  let ip0 := jsOptIndex0 tips
  pure
    { ip := if jsTruthy ip0 then ip0 else .jstr "-"
      hostname := host
      online := onlineV
      relay := if jsTruthy relayV then relayV else .jstr "-"
      direct := jsTruthy curV
      rxBytes := if jsTruthy rxV then jsFormatBytes rxV else "-"
      txBytes := if jsTruthy txV then jsFormatBytes txV else "-" }

/-- Sequential effectful map, the shape of the for-of push loop of the
source: the first thrown error aborts the whole loop. -/
def mapMExc (f : α → Except String β) : List α → Except String (List β)
  | [] => .ok []
  | a :: l => do
      let b ← f a
      let bs ← mapMExc f l
      pure (b :: bs)

/-- Result of the peer-status collector: an error variant carrying a
displayable message, or a success variant carrying the peer list. -/
inductive PeerStatus where
  | error (msg : String)
  | peers (ps : List PeerSummary)

/-- Permission-denied message of the source. -/
def permMsg : String :=
  "Permission denied: Ensure LuCI has access to run \"tailscale status\"."

/-- Service-not-running message of the source. -/
def notRunningMsg : String :=
  "Tailscale service is not running."

/-- Empty-output message of the source. -/
def emptyMsg : String :=
  "Tailscale status returned empty output."

/-- Parse-error message of the source, with the caught error text
substituted for the percent-s placeholder. -/
def parseErrMsg (e : String) : String :=
  "Error parsing Tailscale status: " ++ e

/-- Default message installed by the catch of the exec call when the raised
error carries no truthy message. -/
def execFailDefaultMsg : String :=
  "Failed to execute tailscale command"

/-- Non-zero-exit classification of loadPeerStatus: a message containing
Permission wins, then a message containing not running or stopped, then the
generic message carrying the raw text. -/
def classifyFail (message : String) : PeerStatus :=
  if strIncludes message "Permission" then .error permMsg
  else if strIncludes message "not running" || strIncludes message "stopped" then
    .error notRunningMsg
  else .error ("Unable to get Tailscale status: " ++ message)

/-- Body of the try block of loadPeerStatus: parse the output, take the Peer
field (a falsy field collapses to an empty object), enumerate its values and
build one summary per value.  Any thrown error escapes to the catch. -/
def statusTryBody (parse : String → Except String JVal) (stdout : String) :
    Except String PeerStatus := do
  let statusJson ← parse stdout
  let peerField ← jsGetField statusJson "Peer"
  let peersV := if jsTruthy peerField then peerField else .jobj []
  let ps ← mapMExc buildPeer (jsObjectValues peersV)
  pure (.peers ps)

/-- Outcome of the fs.exec call for the status command before the catch:
either the promise rejected with an error whose message is the carried
option (none models a missing or empty, hence falsy, message), or it
resolved with an exit code and an optional standard output. -/
inductive StatusExec where
  | rejected (msg : Option String)
  | resolved (code : Int) (stdout : Option String)
deriving DecidableEq

/-- Translation of loadPeerStatus of the source.  The parse parameter models
the external JSON.parse facility.  The catch on the exec call replaces a
rejection by a code-one result carrying the error message or its default;
the non-zero-exit branch then classifies that message (a resolved non-zero
result carries no message property, so its classified text is the
Command-failed constant); a falsy or whitespace-only output yields the
empty-output error; otherwise the try block runs and a thrown error is
converted to the parse-error message. -/
def loadPeerStatus (parse : String → Except String JVal) (res : StatusExec) : PeerStatus :=
  match res with
  | .rejected m =>
      classifyFail
        (match m with
         | some s => if s != "" then s else execFailDefaultMsg
         | none => execFailDefaultMsg)
  | .resolved code stdout =>
      if code != 0 then
        classifyFail "Command failed"
      else
        match stdout with
        | none => .error emptyMsg
        | some s =>
            if s == "" || jsTrim s == "" then .error emptyMsg
            else
              match statusTryBody parse s with
              | .ok r => r
              | .error e => .error (parseErrMsg e)

/-- Combined view-model record returned by load of the source. -/
structure LoadResult where
  interfaceInfo : Option InterfaceInfo
  peerStatus : PeerStatus

/-- Translation of load of the source: the two collectors run independently
and their results are combined into one record. -/
def load (rxRes txRes mtuRes : Option String) (ipRes : Option IpExec)
    (parse : String → Except String JVal) (st : StatusExec) : LoadResult :=
  { interfaceInfo := loadInterfaceInfo rxRes txRes mtuRes ipRes
    peerStatus := loadPeerStatus parse st }

/-- Literal transcription of claim C1 on the absence rule, with a failed
read rendered as an absent read result. -/
def interfaceAbsentClaim : Prop :=
  ∀ (rx tx mtu : Option String) (ip : Option IpExec),
    loadInterfaceInfo rx tx mtu ip = none ↔
      (rx = none ∧ mtu = none ∧ (ip = none ∨ ∃ r, ip = some r ∧ r.code ≠ 0))

/-- Part of claim C5 as stated: a successfully-read but non-numeric or
missing counter value is treated as zero before formatting. -/
def rxMissingZeroClaim : Prop :=
  ∀ (s : String) (tx mtu : Option String) (ip : Option IpExec) (info : InterfaceInfo),
    jsParseInt10 (jsTrim s) = none →
    loadInterfaceInfo (some s) tx mtu ip = some info →
    info.rxBytes = formatBytes1024m 0

/-- Concrete status output of the C6 scenario (the JSON text of the claim). -/
def c6stdout : String :=
  "\x7b\"Peer\":\x7b\"a\":\x7b\"DNSName\":\"node1.tailnetxyz.ts.net.\",\"Online\":true,\"TailscaleIPs\":[\"100.1.2.3\"],\"RxBytes\":2097152\x7d\x7d\x7d"

/-- JSON value denoted by the C6 status output. -/
def c6json : JVal :=
  .jobj [("Peer", .jobj [("a", .jobj
    [("DNSName", .jstr "node1.tailnetxyz.ts.net."),
     ("Online", .jbool true),
     ("TailscaleIPs", .jarr [.jstr "100.1.2.3"]),
     ("RxBytes", .jnum 2097152)])])]

/-- Modelled from the spec: JSON.parse is an external host facility; on the
concrete status output of the C6 scenario it yields the corresponding JSON
value, and rejects every other input for definiteness. -/
def c6parse (s : String) : Except String JVal :=
  if s == c6stdout then .ok c6json else .error "SyntaxError: Unexpected token"

/-- Address-command output of the C7 scenario. -/
def c7out : String :=
  "5: tailscale0: <POINTOPOINT,MULTICAST,NOARP,UP,LOWER_UP> mtu 1280 state UNKNOWN\n    inet 100.80.52.1/32 scope global tailscale0\n       valid_lft forever preferred_lft forever\n"

/-- Address-command output of the C8 scenario: a link-local line followed by
a global line. -/
def c8out : String :=
  "    inet6 fe80::1/64 scope link\n    inet6 fd7a:115c:a1e0::9f01:1560/128 scope global\n"

/-- Concrete status output of the C9 witness scenario: one peer carrying
only a HostName and no byte counters. -/
def c9stdout : String :=
  "\x7b\"Peer\":\x7b\"x\":\x7b\"HostName\":\"h\"\x7d\x7d\x7d"

/-- JSON value denoted by the C9 witness output. -/
def c9json : JVal :=
  .jobj [("Peer", .jobj [("x", .jobj [("HostName", .jstr "h")])])]

/-- Modelled from the spec: JSON.parse is an external host facility; on the
concrete output of the C9 witness scenario it yields the corresponding JSON
value, and rejects every other input for definiteness. -/
def c9parse (s : String) : Except String JVal :=
  if s == c9stdout then .ok c9json else .error "SyntaxError: Unexpected end of JSON input"

theorem strAppend_data (a b : String) : (a ++ b).data = a.data ++ b.data := by
  cases a
  cases b
  rfl

/-- Generic message nonemptiness: the classified generic failure text starts
with a fixed nonempty literal. -/
theorem genericMsg_ne_empty (m : String) : ("Unable to get Tailscale status: " ++ m) ≠ "" := by
  obtain ⟨l⟩ := m
  intro h
  have h1 : (("Unable to get Tailscale status: " ++ String.mk l)).data.head? = some 'U' := rfl
  rw [h] at h1
  exact absurd h1 (by decide)

/-- Parse-error message nonemptiness. -/
theorem parseErrMsg_ne_empty (e : String) : parseErrMsg e ≠ "" := by
  obtain ⟨l⟩ := e
  intro h
  have h1 : (parseErrMsg (String.mk l)).data.head? = some 'E' := rfl
  rw [h] at h1
  exact absurd h1 (by decide)

/-- Empty-output message and parse-error message differ: their first
characters differ. -/
theorem emptyMsg_ne_parseErrMsg (e : String) : emptyMsg ≠ parseErrMsg e := by
  obtain ⟨l⟩ := e
  intro h
  have h1 : emptyMsg.data.head? = some 'T' := rfl
  rw [h] at h1
  have h2 : (parseErrMsg (String.mk l)).data.head? = some 'E' := rfl
  rw [h2] at h1
  exact absurd h1 (by decide)

/-- Every outcome of the non-zero-exit classification is an error variant
carrying a nonempty message. -/
theorem classifyFail_error (msg : String) :
    ∃ m, classifyFail msg = PeerStatus.error m ∧ m ≠ "" := by
  unfold classifyFail
  by_cases h1 : strIncludes msg "Permission" = true
  · exact ⟨permMsg, by simp [h1], by decide⟩
  · rw [Bool.not_eq_true] at h1
    by_cases h2 : (strIncludes msg "not running" || strIncludes msg "stopped") = true
    · exact ⟨notRunningMsg, by simp [h1, h2], by decide⟩
    · rw [Bool.not_eq_true] at h2
      exact ⟨"Unable to get Tailscale status: " ++ msg, by simp [h1, h2],
        genericMsg_ne_empty msg⟩

/-- A successful try-block run always delivers the success variant. -/
theorem statusTryBody_ok (parse : String → Except String JVal) (s : String)
    (r : PeerStatus) (h : statusTryBody parse s = .ok r) : ∃ ps, r = PeerStatus.peers ps := by
  unfold statusTryBody at h
  cases hp : parse s with
  | error e =>
      rw [hp] at h
      simp [Bind.bind, Except.bind] at h
  | ok j =>
      rw [hp] at h
      simp only [Bind.bind, Except.bind] at h
      cases hg : jsGetField j "Peer" with
      | error e => rw [hg] at h; simp at h
      | ok pf =>
          rw [hg] at h
          cases hm : mapMExc buildPeer (jsObjectValues (if jsTruthy pf then pf else JVal.jobj [])) with
          | error e => simp [hm] at h
          | ok ps =>
              simp [hm, Pure.pure, Except.pure] at h
              exact ⟨ps, h.symm⟩

theorem scanAddrs_fst_some (lines : List String) :
    ∀ v6 x, (scanAddrs lines (some x) v6).1 = some x := by
  induction lines with
  | nil => intro v6 x; rfl
  | cons line rest ih =>
      intro v6 x
      simpa [scanAddrs] using ih _ x

theorem scanAddrs_snd_some (lines : List String) :
    ∀ v4 x, (scanAddrs lines v4 (some x)).2 = some x := by
  induction lines with
  | nil => intro v4 x; rfl
  | cons line rest ih =>
      intro v4 x
      cases v4 <;> simpa [scanAddrs] using ih _ x

/-- First-match-wins characterization of the IPv4 slot of the line loop. -/
theorem scanAddrs_fst_none (lines : List String) :
    ∀ v6, (scanAddrs lines none v6).1 = lines.findSome? ipv4Capture := by
  induction lines with
  | nil => intro v6; rfl
  | cons line rest ih =>
      intro v6
      cases hc : ipv4Capture line with
      | some x => simp [scanAddrs, hc, List.findSome?, scanAddrs_fst_some]
      | none => simp [scanAddrs, hc, List.findSome?, ih]

/-- First-match-wins characterization of the IPv6 slot of the line loop. -/
theorem scanAddrs_snd_none (lines : List String) :
    ∀ v4, (scanAddrs lines v4 none).2 = lines.findSome? ipv6Good := by
  induction lines with
  | nil => intro v4; rfl
  | cons line rest ih =>
      intro v4
      cases hc : ipv6Good line with
      | some x => cases v4 <;> simp [scanAddrs, hc, List.findSome?, scanAddrs_snd_some]
      | none => cases v4 <;> simp [scanAddrs, hc, List.findSome?, ih]

/-- Membership witness of a first-match scan. -/
theorem findSome?_mem {α β : Type} (f : α → Option β) (l : List α) (b : β)
    (h : l.findSome? f = some b) : ∃ a, a ∈ l ∧ f a = some b := by
  induction l with
  | nil => simp [List.findSome?] at h
  | cons x xs ih =>
      rw [List.findSome?] at h
      cases hx : f x with
      | some y =>
          rw [hx] at h
          simp at h
          exact ⟨x, List.mem_cons_self x xs, by rw [hx, h]⟩
      | none =>
          rw [hx] at h
          simp only [] at h
          obtain ⟨a, ha, hfa⟩ := ih h
          exact ⟨a, List.mem_cons_of_mem x ha, hfa⟩

/-- A captured token of the pattern model is never the empty string. -/
theorem captureTok_ne_empty (marker : List Char) (good : Char → Bool) (line : String)
    (t : String) (h : captureTok marker good line = some t) : t ≠ "" := by
  unfold captureTok at h
  cases hs : stripPre marker (line.data.dropWhile Char.isWhitespace) with
  | none => rw [hs] at h; simp at h
  | some rest =>
      rw [hs] at h
      by_cases hw : (rest.takeWhile Char.isWhitespace).isEmpty = true
      · simp [hw] at h
      · rw [Bool.not_eq_true] at hw
        simp only [hw, Bool.false_eq_true, if_false] at h
        by_cases ht : ((rest.dropWhile Char.isWhitespace).takeWhile good).isEmpty = true
        · simp [ht] at h
        · rw [Bool.not_eq_true] at ht
          simp only [ht, Bool.false_eq_true, if_false, Option.some.injEq] at h
          subst h
          intro he
          have : (rest.dropWhile Char.isWhitespace).takeWhile good = [] := by
            have := congrArg String.data he
            simpa using this
          rw [this] at ht
          simp at ht

theorem ipv4Capture_ne_empty (line t : String) (h : ipv4Capture line = some t) : t ≠ "" :=
  captureTok_ne_empty _ _ _ _ h

theorem ipv6Good_ne_empty (line t : String) (h : ipv6Good line = some t) : t ≠ "" := by
  unfold ipv6Good at h
  cases hc : ipv6Capture line with
  | none => rw [hc] at h; simp at h
  | some u =>
      rw [hc] at h
      by_cases hf : startsFe80 u = true
      · simp [hf] at h
      · rw [Bool.not_eq_true] at hf
        simp only [hf, Bool.false_eq_true, if_false, Option.some.injEq] at h
        subst h
        exact captureTok_ne_empty _ _ _ _ hc

/-- The sequential effectful map preserves length on success. -/
theorem mapMExc_length {α β : Type} (f : α → Except String β) (l : List α) :
    ∀ bs, mapMExc f l = .ok bs → bs.length = l.length := by
  induction l with
  | nil => intro bs h; simp [mapMExc] at h; simp [← h]
  | cons a as ih =>
      intro bs h
      unfold mapMExc at h
      cases hf : f a with
      | error e => rw [hf] at h; simp [Bind.bind, Except.bind] at h
      | ok b =>
          rw [hf] at h
          simp only [Bind.bind, Except.bind] at h
          cases hm : mapMExc f as with
          | error e => rw [hm] at h; simp at h
          | ok bs' =>
              rw [hm] at h
              simp [Pure.pure, Except.pure] at h
              rw [← h]
              simp [ih bs' hm]

/-- Meaning of the address-command part of the absence guard, in the
specification's vocabulary. -/
theorem ipCmdFailed_iff (ip : Option IpExec) :
    ipCmdFailed ip = true ↔ (ip = none ∨ ∃ r, ip = some r ∧ r.code ≠ 0) := by
  cases ip with
  | none => simp [ipCmdFailed]
  | some r => simp [ipCmdFailed, bne_iff_ne]

theorem absentCond_iff (rx mtu : Option String) (ip : Option IpExec) :
    absentCond rx mtu ip = true ↔
      (strTruthy rx = false ∧ strTruthy mtu = false ∧ ipCmdFailed ip = true) := by
  simp [absentCond, Bool.and_eq_true, Bool.not_eq_true', and_assoc]

theorem loadInterfaceInfo_eq_none_iff (rx tx mtu : Option String) (ip : Option IpExec) :
    loadInterfaceInfo rx tx mtu ip = none ↔ absentCond rx mtu ip = true := by
  unfold loadInterfaceInfo
  cases h : absentCond rx mtu ip <;> simp [h]

theorem loadInterfaceInfo_some (rx tx mtu : Option String) (ip : Option IpExec)
    (info : InterfaceInfo) (h : loadInterfaceInfo rx tx mtu ip = some info) :
    info = interfaceRecord rx tx mtu ip := by
  unfold loadInterfaceInfo at h
  cases hc : absentCond rx mtu ip <;> rw [hc] at h <;> simp at h
  exact h.symm

/-- Claim C1 as stated is false: when the RX byte-counter read succeeds but
returns the empty string (a falsy value), with the MTU read failed and the
address command failed, the collector still returns the absent outcome,
although the claimed condition requires a failed RX read. -/
theorem claim_C1_counterexample : ¬ interfaceAbsentClaim := by
  intro h
  have h2 := (h (some "") none none none).mp rfl
  exact absurd h2.1 (by decide)

/-- Claim C1 amended: the collector returns the absent outcome if and only
if the RX read failed or returned empty text, the MTU read failed or
returned empty text, and the address-listing command failed to execute or
exited non-zero; in every other case it returns a present record in which
each field whose own source failed (or, for the reads, returned empty text)
is independently defaulted to the dash placeholder. -/
theorem claim_C1_amended :
    ∀ (rx tx mtu : Option String) (ip : Option IpExec),
      (loadInterfaceInfo rx tx mtu ip = none ↔
        (strTruthy rx = false ∧ strTruthy mtu = false ∧
          (ip = none ∨ ∃ r, ip = some r ∧ r.code ≠ 0)))
      ∧ (∀ info, loadInterfaceInfo rx tx mtu ip = some info →
          (strTruthy rx = false → info.rxBytes = "-")
          ∧ (strTruthy tx = false → info.txBytes = "-")
          ∧ (strTruthy mtu = false → info.mtu = "-")
          ∧ ((ip = none ∨ ∃ r, ip = some r ∧ r.code ≠ 0) →
              info.ipv4 = "-" ∧ info.ipv6 = "-")) := by
  intro rx tx mtu ip
  constructor
  · rw [loadInterfaceInfo_eq_none_iff, absentCond_iff, ipCmdFailed_iff]
  · intro info hinfo
    have hrec := loadInterfaceInfo_some rx tx mtu ip info hinfo
    subst hrec
    refine ⟨?_, ?_, ?_, ?_⟩
    · intro hrx
      cases rx with
      | none => rfl
      | some s =>
          simp only [strTruthy] at hrx
          simp [interfaceRecord, hrx]
    · intro htx
      cases tx with
      | none => rfl
      | some s =>
          simp only [strTruthy] at htx
          simp [interfaceRecord, htx]
    · intro hmtu
      cases mtu with
      | none => rfl
      | some s =>
          simp only [strTruthy] at hmtu
          simp [interfaceRecord, hmtu]
    · intro hip
      have hfail : ipCmdFailed ip = true := (ipCmdFailed_iff ip).mpr hip
      have hout : addrOut ip = none := by
        cases ip with
        | none => rfl
        | some r =>
            simp only [ipCmdFailed, bne_iff_ne] at hfail
            simp [addrOut, hfail]
      simp [interfaceRecord, scannedPair, hout, jsOrDash]

/-- Claim C1 amended, applied at concrete inputs: the absent outcome at
all-failed reads, and dash defaulting of the TX field at a record whose only
successful read is the RX counter. -/
theorem claim_C1_amended_witness :
    loadInterfaceInfo none none none none = none ∧
    (InterfaceInfo.mk "tailscale0" "2 MB" "-" "-" "-" "-").txBytes = "-" :=
  ⟨((claim_C1_amended none none none none).1).mpr ⟨rfl, rfl, Or.inl rfl⟩,
   (((claim_C1_amended (some "2097152") none none none).2
      (InterfaceInfo.mk "tailscale0" "2 MB" "-" "-" "-" "-") rfl).2.1) rfl⟩

theorem interfaceRecord_rxBytes (rx tx mtu : Option String) (ip : Option IpExec) :
    (interfaceRecord rx tx mtu ip).rxBytes =
      match rx with
      | some s => if s != "" then formatBytes1024m (parseIntOr0 (jsTrim s)) else "-"
      | none => "-" := rfl

theorem interfaceRecord_txBytes (rx tx mtu : Option String) (ip : Option IpExec) :
    (interfaceRecord rx tx mtu ip).txBytes =
      match tx with
      | some s => if s != "" then formatBytes1024m (parseIntOr0 (jsTrim s)) else "-"
      | none => "-" := rfl

theorem interfaceRecord_ipv4 (rx tx mtu : Option String) (ip : Option IpExec) :
    (interfaceRecord rx tx mtu ip).ipv4 = jsOrDash (scannedPair ip).1 := rfl

theorem interfaceRecord_ipv6 (rx tx mtu : Option String) (ip : Option IpExec) :
    (interfaceRecord rx tx mtu ip).ipv6 = jsOrDash (scannedPair ip).2 := rfl

/-- Claim C5 as stated is false: an RX read that succeeds with the empty
string carries no numeric value, yet the field becomes the dash placeholder
rather than the formatted rendering of zero. -/
theorem claim_C5_counterexample : ¬ rxMissingZeroClaim := by
  intro h
  have h2 := h "" none (some "1280") none
    (InterfaceInfo.mk "tailscale0" "-" "-" "1280" "-" "-") rfl rfl
  exact absurd h2 (by decide)

/-- Claim C5 amended: a successfully-read counter whose trimmed text parses
to an integer n is formatted as n divided by 1048576 with the fixed unit
suffix; a successfully-read nonempty but non-numeric value is treated as
zero before formatting; and a failed read, or a read returning the empty
string, yields exactly the dash and never the formatted rendering of zero.
The same holds for the TX counter. -/
theorem claim_C5_amended :
    (∀ (s : String) (n : Int) (tx mtu : Option String) (ip : Option IpExec)
        (info : InterfaceInfo), 0 ≤ n → jsParseInt10 (jsTrim s) = some n →
        loadInterfaceInfo (some s) tx mtu ip = some info →
        info.rxBytes = toString (n / 1048576) ++ " MB")
    ∧ (∀ (s : String) (n : Int) (rx mtu : Option String) (ip : Option IpExec)
        (info : InterfaceInfo), 0 ≤ n → jsParseInt10 (jsTrim s) = some n →
        loadInterfaceInfo rx (some s) mtu ip = some info →
        info.txBytes = toString (n / 1048576) ++ " MB")
    ∧ (∀ (s : String) (tx mtu : Option String) (ip : Option IpExec)
        (info : InterfaceInfo), s ≠ "" → jsParseInt10 (jsTrim s) = none →
        loadInterfaceInfo (some s) tx mtu ip = some info →
        info.rxBytes = formatBytes1024m 0)
    ∧ (∀ (s : String) (rx mtu : Option String) (ip : Option IpExec)
        (info : InterfaceInfo), s ≠ "" → jsParseInt10 (jsTrim s) = none →
        loadInterfaceInfo rx (some s) mtu ip = some info →
        info.txBytes = formatBytes1024m 0)
    ∧ (∀ (rx : Option String) (tx mtu : Option String) (ip : Option IpExec)
        (info : InterfaceInfo), (rx = none ∨ rx = some "") →
        loadInterfaceInfo rx tx mtu ip = some info →
        info.rxBytes = "-" ∧ info.rxBytes ≠ formatBytes1024m 0)
    ∧ (∀ (rx tx mtu : Option String) (ip : Option IpExec)
        (info : InterfaceInfo), (tx = none ∨ tx = some "") →
        loadInterfaceInfo rx tx mtu ip = some info →
        info.txBytes = "-" ∧ info.txBytes ≠ formatBytes1024m 0) := by
  have hne : ∀ (s : String) (n : Int), jsParseInt10 (jsTrim s) = some n → s ≠ "" := by
    intro s n hp he
    rw [he] at hp
    exact Option.noConfusion hp
  refine ⟨?_, ?_, ?_, ?_, ?_, ?_⟩
  · intro s n tx mtu ip info _ hp hinfo
    have hs := hne s n hp
    have hrec := loadInterfaceInfo_some _ _ _ _ _ hinfo
    subst hrec
    rw [interfaceRecord_rxBytes]
    simp only [bne_iff_ne, ne_eq, hs, not_false_eq_true, if_true]
    unfold parseIntOr0
    rw [hp]
    rfl
  · intro s n rx mtu ip info _ hp hinfo
    have hs := hne s n hp
    have hrec := loadInterfaceInfo_some _ _ _ _ _ hinfo
    subst hrec
    rw [interfaceRecord_txBytes]
    simp only [bne_iff_ne, ne_eq, hs, not_false_eq_true, if_true]
    unfold parseIntOr0
    rw [hp]
    rfl
  · intro s tx mtu ip info hs hp hinfo
    have hrec := loadInterfaceInfo_some _ _ _ _ _ hinfo
    subst hrec
    rw [interfaceRecord_rxBytes]
    simp only [bne_iff_ne, ne_eq, hs, not_false_eq_true, if_true]
    unfold parseIntOr0
    rw [hp]
  · intro s rx mtu ip info hs hp hinfo
    have hrec := loadInterfaceInfo_some _ _ _ _ _ hinfo
    subst hrec
    rw [interfaceRecord_txBytes]
    simp only [bne_iff_ne, ne_eq, hs, not_false_eq_true, if_true]
    unfold parseIntOr0
    rw [hp]
  · intro rx tx mtu ip info hrx hinfo
    have hrec := loadInterfaceInfo_some _ _ _ _ _ hinfo
    subst hrec
    rw [interfaceRecord_rxBytes]
    rcases hrx with h | h <;> subst h <;> exact ⟨rfl, by decide⟩
  · intro rx tx mtu ip info htx hinfo
    have hrec := loadInterfaceInfo_some _ _ _ _ _ hinfo
    subst hrec
    rw [interfaceRecord_txBytes]
    rcases htx with h | h <;> subst h <;> exact ⟨rfl, by decide⟩

/-- Claim C5 amended, applied at a concrete read of 2097152 bytes, at a
non-numeric TX read, and at a failed RX read. -/
theorem claim_C5_amended_witness :
    (InterfaceInfo.mk "tailscale0" "2 MB" "-" "-" "-" "-").rxBytes =
        toString ((2097152 : Int) / 1048576) ++ " MB" ∧
    (InterfaceInfo.mk "tailscale0" "-" "0 MB" "-" "-" "-").txBytes = formatBytes1024m 0 ∧
    (InterfaceInfo.mk "tailscale0" "-" "-" "1280" "-" "-").rxBytes = "-" :=
  ⟨claim_C5_amended.1 "2097152" 2097152 none none none
      (InterfaceInfo.mk "tailscale0" "2 MB" "-" "-" "-" "-") (by decide) (by decide) rfl,
   claim_C5_amended.2.2.2.1 "abc" none none (some ⟨0, none⟩)
      (InterfaceInfo.mk "tailscale0" "-" "0 MB" "-" "-" "-") (by decide) (by decide) rfl,
   (claim_C5_amended.2.2.2.2.1 none none (some "1280") none
      (InterfaceInfo.mk "tailscale0" "-" "-" "1280" "-" "-") (Or.inl rfl) rfl).1⟩

/-- Claim C2: for every outcome of the external status command and every
behaviour of the JSON parser, the peer-status collector is total: the
combined load result always carries either an error variant with a nonempty
human-readable message or a success variant with a peer list; nothing
escapes as a raised fault. -/
theorem claim_C2 :
    ∀ (rx tx mtu : Option String) (ip : Option IpExec)
      (parse : String → Except String JVal) (st : StatusExec),
      (∃ m, (load rx tx mtu ip parse st).peerStatus = PeerStatus.error m ∧ m ≠ "")
      ∨ (∃ ps, (load rx tx mtu ip parse st).peerStatus = PeerStatus.peers ps) := by
  intro rx tx mtu ip parse st
  show (∃ m, loadPeerStatus parse st = PeerStatus.error m ∧ m ≠ "")
      ∨ (∃ ps, loadPeerStatus parse st = PeerStatus.peers ps)
  cases st with
  | rejected m =>
      left
      obtain ⟨m', hm', hne⟩ := classifyFail_error
        (match m with
         | some s => if s != "" then s else execFailDefaultMsg
         | none => execFailDefaultMsg)
      exact ⟨m', hm', hne⟩
  | resolved code stdout =>
      unfold loadPeerStatus
      cases hc : (code != 0) with
      | true =>
          left
          simp only [hc, if_true]
          exact classifyFail_error "Command failed"
      | false =>
          simp only [hc, Bool.false_eq_true, if_false]
          cases stdout with
          | none => exact Or.inl ⟨emptyMsg, rfl, by decide⟩
          | some s =>
              cases hb : (s == "" || jsTrim s == "") with
              | true => simp only [hb, if_true]; exact Or.inl ⟨emptyMsg, rfl, by decide⟩
              | false =>
                  simp only [hb, Bool.false_eq_true, if_false]
                  cases ht : statusTryBody parse s with
                  | error e =>
                      exact Or.inl ⟨parseErrMsg e, rfl, parseErrMsg_ne_empty e⟩
                  | ok r =>
                      obtain ⟨ps, hps⟩ := statusTryBody_ok parse s r ht
                      exact Or.inr ⟨ps, by rw [hps]⟩

/-- Claim C3: a non-zero exit carrying message text m is classified with
Permission taking the first priority, then not running or stopped, and
otherwise the generic failure message containing the raw text m. -/
theorem claim_C3 :
    ∀ (parse : String → Except String JVal) (m : String), m ≠ "" →
      (strIncludes m "Permission" = true →
        loadPeerStatus parse (.rejected (some m)) = PeerStatus.error permMsg)
      ∧ (strIncludes m "Permission" = false →
          (strIncludes m "not running" || strIncludes m "stopped") = true →
          loadPeerStatus parse (.rejected (some m)) = PeerStatus.error notRunningMsg)
      ∧ (strIncludes m "Permission" = false →
          strIncludes m "not running" = false → strIncludes m "stopped" = false →
          loadPeerStatus parse (.rejected (some m)) =
            PeerStatus.error ("Unable to get Tailscale status: " ++ m)) := by
  intro parse m hm
  have hb : (m != "") = true := bne_iff_ne.mpr hm
  have hload : loadPeerStatus parse (.rejected (some m)) = classifyFail m := by
    simp [loadPeerStatus, hb]
  refine ⟨?_, ?_, ?_⟩
  · intro h1
    rw [hload]
    simp [classifyFail, h1]
  · intro h1 h2
    rw [hload]
    simp [classifyFail, h1, h2]
  · intro h1 h2 h3
    rw [hload]
    simp [classifyFail, h1, h2, h3]

/-- Claim C3, applied at the three concrete messages Permission denied,
tailscaled stopped, and boom. -/
theorem claim_C3_witness :
    loadPeerStatus (fun _ => Except.error "p") (.rejected (some "Permission denied")) =
        PeerStatus.error permMsg ∧
    loadPeerStatus (fun _ => Except.error "p") (.rejected (some "tailscaled stopped")) =
        PeerStatus.error notRunningMsg ∧
    loadPeerStatus (fun _ => Except.error "p") (.rejected (some "boom")) =
        PeerStatus.error ("Unable to get Tailscale status: " ++ "boom") :=
  ⟨(claim_C3 (fun _ => Except.error "p") "Permission denied" (by decide)).1 (by decide),
   (claim_C3 (fun _ => Except.error "p") "tailscaled stopped" (by decide)).2.1
     (by decide) (by decide),
   (claim_C3 (fun _ => Except.error "p") "boom" (by decide)).2.2
     (by decide) (by decide) (by decide)⟩

/-- Claim C4: exit code zero with an absent, empty or whitespace-only
standard output yields the empty-output error for every possible JSON
parser, and that message is never a parse-error message. -/
theorem claim_C4 :
    ∀ (parse : String → Except String JVal) (stdout : Option String),
      (stdout = none ∨ ∃ s, stdout = some s ∧ jsTrim s = "") →
      loadPeerStatus parse (.resolved 0 stdout) = PeerStatus.error emptyMsg
      ∧ ∀ e, emptyMsg ≠ parseErrMsg e := by
  intro parse stdout h
  refine ⟨?_, emptyMsg_ne_parseErrMsg⟩
  rcases h with h | ⟨s, hs, ht⟩
  · subst h
    rfl
  · subst hs
    have hb : (jsTrim s == "") = true := beq_iff_eq.mpr ht
    unfold loadPeerStatus
    simp [hb]

/-- Claim C4, applied at a whitespace-only output under a parser that
would succeed, showing the parser is not consulted. -/
theorem claim_C4_witness :
    loadPeerStatus (fun _ => Except.ok (JVal.jobj [])) (.resolved 0 (some "  ")) =
      PeerStatus.error emptyMsg :=
  (claim_C4 (fun _ => Except.ok (JVal.jobj [])) (some "  ")
    (Or.inr ⟨"  ", rfl, rfl⟩)).1

/-- Claim C10: on an overlapping message containing both Permission and a
service-stopped marker, the Permission classification is checked first and
wins. -/
theorem claim_C10 :
    ∀ (parse : String → Except String JVal) (m : String),
      strIncludes m "Permission" = true →
      (strIncludes m "not running" || strIncludes m "stopped") = true →
      loadPeerStatus parse (.rejected (some m)) = PeerStatus.error permMsg := by
  intro parse m h1 _h2
  have hm : m ≠ "" := by
    intro he
    subst he
    exact absurd h1 (by decide)
  have hb : (m != "") = true := bne_iff_ne.mpr hm
  have hload : loadPeerStatus parse (.rejected (some m)) = classifyFail m := by
    simp [loadPeerStatus, hb]
  rw [hload]
  simp [classifyFail, h1]

/-- Claim C10, applied at a message containing both markers. -/
theorem claim_C10_witness :
    loadPeerStatus (fun _ => Except.error "p")
      (.rejected (some "Permission denied: tailscale stopped, not running")) =
      PeerStatus.error permMsg :=
  claim_C10 (fun _ => Except.error "p")
    "Permission denied: tailscale stopped, not running" (by decide) (by decide)

/-- Claim C6: on exit code zero with the given one-peer JSON output, the
collector returns the success variant with exactly one peer summary whose
hostname is the DNS name cut at its first dot, whose online flag is true,
whose ip is the first tailnet address, whose rxBytes is 2 MB, and whose
direct flag is false since no CurAddr field is present. -/
theorem claim_C6 :
    loadPeerStatus c6parse (.resolved 0 (some c6stdout)) =
      PeerStatus.peers
        [{ ip := JVal.jstr "100.1.2.3"
           hostname := JVal.jstr "node1"
           online := JVal.jbool true
           relay := JVal.jstr "-"
           direct := false
           rxBytes := "2 MB"
           txBytes := "-" }] := by
  rfl

/-- Reduction of the present-record IPv4 field to the first-match scan of
the lines of a zero-exit address-command output. -/
theorem interfaceInfo_ipv4_findSome (out : String) (rx tx mtu : Option String)
    (info : InterfaceInfo)
    (h : loadInterfaceInfo rx tx mtu (some ⟨0, some out⟩) = some info) :
    info.ipv4 = ((jsLines out).findSome? ipv4Capture).getD "-" := by
  have hrec := loadInterfaceInfo_some _ _ _ _ _ h
  subst hrec
  rw [interfaceRecord_ipv4]
  by_cases hout : out = ""
  · subst hout
    rfl
  · have hb : strTruthy (some out) = true := bne_iff_ne.mpr hout
    have hpair : scannedPair (some ⟨0, some out⟩) = scanAddrs (jsLines out) none none := by
      simp [scannedPair, addrOut, hb]
    rw [hpair, scanAddrs_fst_none]
    cases hf : (jsLines out).findSome? ipv4Capture with
    | none => rfl
    | some t =>
        obtain ⟨line, _, hcap⟩ := findSome?_mem ipv4Capture (jsLines out) t hf
        have ht : t ≠ "" := ipv4Capture_ne_empty line t hcap
        simp [jsOrDash, bne_iff_ne, ht]

/-- Claim C7: for every address-command output the extracted IPv4 is the
capture of the first line matching the anchored inet pattern, scanning the
lines in order, with the dash when no line matches; in particular, on the
sample output containing an indented inet line the extracted IPv4 is
100.80.52.1. -/
theorem claim_C7 :
    (∀ (out : String) (rx tx mtu : Option String) (info : InterfaceInfo),
        loadInterfaceInfo rx tx mtu (some ⟨0, some out⟩) = some info →
        info.ipv4 = ((jsLines out).findSome? ipv4Capture).getD "-")
    ∧ (∃ info, loadInterfaceInfo none none none (some ⟨0, some c7out⟩) = some info
        ∧ info.ipv4 = "100.80.52.1") :=
  ⟨interfaceInfo_ipv4_findSome,
   ⟨InterfaceInfo.mk "tailscale0" "-" "-" "-" "100.80.52.1" "-", rfl, rfl⟩⟩

/-- Claim C7, applied at the sample output: the scan of its lines yields
the address of its indented inet line. -/
theorem claim_C7_witness :
    (InterfaceInfo.mk "tailscale0" "-" "-" "-" "100.80.52.1" "-").ipv4 =
      ((jsLines c7out).findSome? ipv4Capture).getD "-" :=
  claim_C7.1 c7out none none none
    (InterfaceInfo.mk "tailscale0" "-" "-" "-" "100.80.52.1" "-") rfl

/-- Reduction of the present-record IPv6 field to the first-match scan of
the lines with the link-local filter applied per line. -/
theorem interfaceInfo_ipv6_findSome (out : String) (rx tx mtu : Option String)
    (info : InterfaceInfo)
    (h : loadInterfaceInfo rx tx mtu (some ⟨0, some out⟩) = some info) :
    info.ipv6 = ((jsLines out).findSome? ipv6Good).getD "-" := by
  have hrec := loadInterfaceInfo_some _ _ _ _ _ h
  subst hrec
  rw [interfaceRecord_ipv6]
  by_cases hout : out = ""
  · subst hout
    rfl
  · have hb : strTruthy (some out) = true := bne_iff_ne.mpr hout
    have hpair : scannedPair (some ⟨0, some out⟩) = scanAddrs (jsLines out) none none := by
      simp [scannedPair, addrOut, hb]
    rw [hpair, scanAddrs_snd_none]
    cases hf : (jsLines out).findSome? ipv6Good with
    | none => rfl
    | some t =>
        obtain ⟨line, _, hcap⟩ := findSome?_mem ipv6Good (jsLines out) t hf
        have ht : t ≠ "" := ipv6Good_ne_empty line t hcap
        simp [jsOrDash, bne_iff_ne, ht]

/-- Claim C8: for every address-command output the extracted IPv6 is the
first captured inet6 token not starting with fe80, scanning the lines in
order, with the dash when no such token exists; in particular, on the
sample output the link-local line is skipped and the global address is
extracted. -/
theorem claim_C8 :
    (∀ (out : String) (rx tx mtu : Option String) (info : InterfaceInfo),
        loadInterfaceInfo rx tx mtu (some ⟨0, some out⟩) = some info →
        info.ipv6 = ((jsLines out).findSome? ipv6Good).getD "-")
    ∧ (∃ info, loadInterfaceInfo none none none (some ⟨0, some c8out⟩) = some info
        ∧ info.ipv6 = "fd7a:115c:a1e0::9f01:1560") :=
  ⟨interfaceInfo_ipv6_findSome,
   ⟨InterfaceInfo.mk "tailscale0" "-" "-" "-" "-" "fd7a:115c:a1e0::9f01:1560", rfl, rfl⟩⟩

/-- Claim C8, applied at the sample output with the link-local line first. -/
theorem claim_C8_witness :
    (InterfaceInfo.mk "tailscale0" "-" "-" "-" "-" "fd7a:115c:a1e0::9f01:1560").ipv6 =
      ((jsLines c8out).findSome? ipv6Good).getD "-" :=
  claim_C8.1 c8out none none none
    (InterfaceInfo.mk "tailscale0" "-" "-" "-" "-" "fd7a:115c:a1e0::9f01:1560") rfl

/-- Claim C9: for every peer record of a successfully parsed status JSON,
the rx and tx byte fields are the dash exactly when the raw counter is zero
or absent and the formatted count otherwise; a missing Peer field gives the
success variant with the empty list; and a present Peer mapping gives one
summary per entry in the iteration order of the mapping. -/
theorem claim_C9 :
    (∀ (fs : List (String × JVal)) (s : PeerSummary), buildPeer (.jobj fs) = .ok s →
        ((fs.lookup "RxBytes" = none ∨ fs.lookup "RxBytes" = some (.jnum 0)) →
            s.rxBytes = "-")
        ∧ (∀ n : Int, fs.lookup "RxBytes" = some (.jnum n) → n ≠ 0 →
            s.rxBytes = formatBytes1024m n)
        ∧ ((fs.lookup "TxBytes" = none ∨ fs.lookup "TxBytes" = some (.jnum 0)) →
            s.txBytes = "-")
        ∧ (∀ n : Int, fs.lookup "TxBytes" = some (.jnum n) → n ≠ 0 →
            s.txBytes = formatBytes1024m n))
    ∧ (∀ (parse : String → Except String JVal) (stdout : String)
          (fields : List (String × JVal)),
        parse stdout = .ok (.jobj fields) → jsTrim stdout ≠ "" →
        fields.lookup "Peer" = none →
        loadPeerStatus parse (.resolved 0 (some stdout)) = PeerStatus.peers [])
    ∧ (∀ (parse : String → Except String JVal) (stdout : String)
          (fields pf : List (String × JVal)) (ps : List PeerSummary),
        parse stdout = .ok (.jobj fields) → jsTrim stdout ≠ "" →
        fields.lookup "Peer" = some (.jobj pf) →
        mapMExc buildPeer (pf.map Prod.snd) = .ok ps →
        loadPeerStatus parse (.resolved 0 (some stdout)) = PeerStatus.peers ps
        ∧ ps.length = pf.length) := by
  have hstdout : ∀ (stdout : String), jsTrim stdout ≠ "" →
      (stdout == "" || jsTrim stdout == "") = false := by
    intro stdout ht
    have hs : stdout ≠ "" := by
      intro he
      rw [he] at ht
      exact ht rfl
    simp [beq_eq_false_iff_ne, hs, ht]
  refine ⟨?_, ?_, ?_⟩
  · intro fs s h
    unfold buildPeer at h
    simp only [Bind.bind, Except.bind, jsGetField, Pure.pure, Except.pure] at h
    cases hh : hostnameOf (.jobj fs) with
    | error e => rw [hh] at h; exact absurd h (by simp)
    | ok host =>
        rw [hh] at h
        simp only [Except.ok.injEq] at h
        subst h
        refine ⟨?_, ?_, ?_, ?_⟩
        · intro hyp
          rcases hyp with h0 | h0 <;> simp [h0, jsTruthy]
        · intro n h0 hn
          simp [h0, jsTruthy, bne_iff_ne, hn, jsFormatBytes]
        · intro hyp
          rcases hyp with h0 | h0 <;> simp [h0, jsTruthy]
        · intro n h0 hn
          simp [h0, jsTruthy, bne_iff_ne, hn, jsFormatBytes]
  · intro parse stdout fields hparse ht hlookup
    have hcond := hstdout stdout ht
    have hbody : statusTryBody parse stdout = .ok (PeerStatus.peers []) := by
      unfold statusTryBody
      rw [hparse]
      simp only [Bind.bind, Except.bind, jsGetField, hlookup, Option.getD_none]
      rfl
    unfold loadPeerStatus
    simp [hcond, hbody]
  · intro parse stdout fields pf ps hparse ht hlookup hmap
    have hcond := hstdout stdout ht
    have hbody : statusTryBody parse stdout = .ok (PeerStatus.peers ps) := by
      unfold statusTryBody
      rw [hparse]
      simp only [Bind.bind, Except.bind, jsGetField, hlookup, Option.getD_some]
      have htru : jsTruthy (JVal.jobj pf) = true := rfl
      rw [htru]
      simp only [if_true]
      have hvals : jsObjectValues (JVal.jobj pf) = pf.map Prod.snd := rfl
      rw [hvals, hmap]
      rfl
    constructor
    · unfold loadPeerStatus
      simp [hcond, hbody]
    · rw [mapMExc_length buildPeer (pf.map Prod.snd) ps hmap, List.length_map]

/-- Claim C9, applied at a one-peer mapping whose record has no byte
counters: the counters default to the dash and the list has one entry. -/
theorem claim_C9_witness :
    loadPeerStatus c9parse (.resolved 0 (some c9stdout)) =
      PeerStatus.peers
        [{ ip := JVal.jstr "-"
           hostname := JVal.jstr "h"
           online := JVal.undefined
           relay := JVal.jstr "-"
           direct := false
           rxBytes := "-"
           txBytes := "-" }] ∧
    ([{ ip := JVal.jstr "-"
        hostname := JVal.jstr "h"
        online := JVal.undefined
        relay := JVal.jstr "-"
        direct := false
        rxBytes := "-"
        txBytes := "-" }] : List PeerSummary).length =
      [("x", JVal.jobj [("HostName", JVal.jstr "h")])].length :=
  claim_C9.2.2 c9parse c9stdout
    [("Peer", JVal.jobj [("x", JVal.jobj [("HostName", JVal.jstr "h")])])]
    [("x", JVal.jobj [("HostName", JVal.jstr "h")])]
    [{ ip := JVal.jstr "-"
       hostname := JVal.jstr "h"
       online := JVal.undefined
       relay := JVal.jstr "-"
       direct := false
       rxBytes := "-"
       txBytes := "-" }]
    rfl (by decide) rfl rfl
